import Mathlib

/-!
# Verification of the multi-agent research pipeline

Shallow embedding, in Lean 4, of the core of the `multi-agent-research-app`
repository: the structured-output recovery helpers (`src/agents/parsing.py`),
the model-call engine with its tool-use loop (`src/agents/base.py`), the
tool dispatcher (`src/orchestration/workflow.py`), the Coordinator and
Researcher response handling (`src/agents/coordinator.py`,
`src/agents/researcher.py`) and the Pydantic validation of research results
(`src/agents/models.py`).  Python strings are embedded as `String` /
`List Char`; regular-expression substitutions are embedded as equivalent
single-pass character scans; fallible code returns `Option` or `Except`.
-/

/-! ## JSON values

The repository hands JSON around as Python dicts/lists produced by
`json.loads` and serialized by `json.dumps` (both from the Python standard
library, outside this repository).  `Json` is the value universe; numbers
are modelled as integers only: no floating-point, exponent or
leading-zero literals, and no surrogate `\u` escapes, appear in anything
this development evaluates. -/

inductive Json where
  | null : Json
  | bool (b : Bool) : Json
  | num (n : Int) : Json
  | str (s : String) : Json
  | arr (items : List Json) : Json
  | obj (fields : List (String × Json)) : Json

/-- Lower-case hex digit, as used by `json.dumps` in `\uXXXX` escapes. -/
def hexDigit (n : Nat) : Char :=
  if n < 10 then Char.ofNat ('0'.toNat + n) else Char.ofNat ('a'.toNat + (n - 10))

/-- Escaping of a single character inside a JSON string literal, following
`json.dumps` with its default `ensure_ascii=True` (characters outside
printable ASCII become `\uXXXX`; astral-plane characters are not modelled). -/
def escapeChar (c : Char) : List Char :=
  if c = '"' then ['\\', '"']
  else if c = '\\' then ['\\', '\\']
  else if c = '\n' then ['\\', 'n']
  else if c = '\t' then ['\\', 't']
  else if c = '\r' then ['\\', 'r']
  else if c.toNat = 8 then ['\\', 'b']
  else if c.toNat = 12 then ['\\', 'f']
  else if c.toNat < 32 || 126 < c.toNat then
    ['\\', 'u', hexDigit (c.toNat / 4096 % 16), hexDigit (c.toNat / 256 % 16),
      hexDigit (c.toNat / 16 % 16), hexDigit (c.toNat % 16)]
  else [c]

/-- A JSON string literal with quotes, following `json.dumps`. -/
def quoteString (s : String) : List Char :=
  '"' :: s.data.foldr (fun c acc => escapeChar c ++ acc) ['"']

mutual

/-- `json.dumps` with its default separators `", "` and `": "`. -/
def Json.dumpsChars : Json → List Char
  | .null => "null".data
  | .bool true => "true".data
  | .bool false => "false".data
  | .num n => (toString n).data
  | .str s => quoteString s
  | .arr items => '[' :: dumpsItems items ++ [']']
  | .obj fields => '{' :: dumpsFields fields ++ ['}']

def dumpsItems : List Json → List Char
  | [] => []
  | [j] => j.dumpsChars
  | j :: j2 :: rest => j.dumpsChars ++ ',' :: ' ' :: dumpsItems (j2 :: rest)

def dumpsFields : List (String × Json) → List Char
  | [] => []
  | [(k, v)] => quoteString k ++ ':' :: ' ' :: v.dumpsChars
  | (k, v) :: kv :: rest =>
      quoteString k ++ ':' :: ' ' :: v.dumpsChars ++ ',' :: ' ' :: dumpsFields (kv :: rest)

end

/-- `json.dumps` as a `String → String`-level operation. -/
def Json.dumps (j : Json) : String := ⟨j.dumpsChars⟩

/-! ## JSON parsing (`json.loads`)

Modelled from the Python standard library's `json.loads` (strict mode),
restricted to the fragment described at `Json`. -/

/-- The whitespace characters `json.loads` skips between tokens. -/
def isJsonWs (c : Char) : Bool := c = ' ' || c = '\t' || c = '\n' || c = '\r'

def skipWs (cs : List Char) : List Char := cs.dropWhile isJsonWs

def hexVal (c : Char) : Option Nat :=
  if '0' ≤ c ∧ c ≤ '9' then some (c.toNat - '0'.toNat)
  else if 'a' ≤ c ∧ c ≤ 'f' then some (c.toNat - 'a'.toNat + 10)
  else if 'A' ≤ c ∧ c ≤ 'F' then some (c.toNat - 'A'.toNat + 10)
  else none

/-- Resolution of a one-character escape sequence in a JSON string. -/
def escValue (e : Char) : Option Char :=
  if e = '"' then some '"'
  else if e = '\\' then some '\\'
  else if e = '/' then some '/'
  else if e = 'n' then some '\n'
  else if e = 't' then some '\t'
  else if e = 'r' then some '\r'
  else if e = 'b' then some (Char.ofNat 8)
  else if e = 'f' then some (Char.ofNat 12)
  else none

/-- Body of a JSON string literal, after the opening quote.  Returns the
decoded characters and the remainder after the closing quote.  In strict
mode (the `json.loads` default) a raw control character is an error. -/
def parseStringBody : List Char → Option (List Char × List Char)
  | [] => none
  | '"' :: rest => some ([], rest)
  | '\\' :: 'u' :: h1 :: h2 :: h3 :: h4 :: rest =>
    match hexVal h1, hexVal h2, hexVal h3, hexVal h4 with
    | some a, some b, some c, some d =>
      (parseStringBody rest).map
        (fun r => (Char.ofNat (4096 * a + 256 * b + 16 * c + d) :: r.1, r.2))
    | _, _, _, _ => none
  | '\\' :: e :: rest =>
    match escValue e with
    | none => none
    | some c => (parseStringBody rest).map (fun r => (c :: r.1, r.2))
  | c :: rest =>
    if c.toNat < 32 then none
    else (parseStringBody rest).map (fun r => (c :: r.1, r.2))

def digitVal (c : Char) : Option Nat :=
  if '0' ≤ c ∧ c ≤ '9' then some (c.toNat - '0'.toNat) else none

def parseDigits (acc : Nat) : List Char → Nat × List Char
  | [] => (acc, [])
  | c :: rest =>
    match digitVal c with
    | some d => parseDigits (10 * acc + d) rest
    | none => (acc, c :: rest)

/-- Is the next character one that would start the unmodelled part of a JSON
number (fraction or exponent)?  Such inputs are outside the modelled
fragment and are rejected. -/
def floatMarker : List Char → Bool
  | [] => false
  | c :: _ => c = '.' || c = 'e' || c = 'E'

/-- A JSON integer literal (optional minus sign, no leading zeros). -/
def parseIntLit (cs : List Char) : Option (Int × List Char) :=
  let signed : Bool × List Char := match cs with
    | '-' :: r => (true, r)
    | _ => (false, cs)
  match signed.2 with
  | '0' :: rest =>
    if floatMarker rest then none
    else match rest with
      | c :: _ => if (digitVal c).isSome then none else some (0, rest)
      | [] => some (0, [])
  | c :: rest =>
    match digitVal c with
    | some d =>
      let p := parseDigits d rest
      if floatMarker p.2 then none
      else some (if signed.1 then -(p.1 : Int) else (p.1 : Int), p.2)
    | none => none
  | [] => none

mutual

/-- One JSON value, by recursive descent with a fuel bound on nesting. -/
def parseJsonValue : Nat → List Char → Option (Json × List Char)
  | 0, _ => none
  | fuel + 1, cs =>
    match skipWs cs with
    | '{' :: rest =>
      (match skipWs rest with
       | '}' :: rest2 => some (.obj [], rest2)
       | _ =>
         match parseObjItems fuel (skipWs rest) with
         | some (fields, rem) => some (.obj fields, rem)
         | none => none)
    | '[' :: rest =>
      (match skipWs rest with
       | ']' :: rest2 => some (.arr [], rest2)
       | _ =>
         match parseArrItems fuel (skipWs rest) with
         | some (items, rem) => some (.arr items, rem)
         | none => none)
    | '"' :: rest =>
      (match parseStringBody rest with
       | some (body, rem) => some (.str ⟨body⟩, rem)
       | none => none)
    | 't' :: 'r' :: 'u' :: 'e' :: rest => some (.bool true, rest)
    | 'f' :: 'a' :: 'l' :: 's' :: 'e' :: rest => some (.bool false, rest)
    | 'n' :: 'u' :: 'l' :: 'l' :: rest => some (.null, rest)
    | other =>
      match parseIntLit other with
      | some (n, rem) => some (.num n, rem)
      | none => none

def parseArrItems : Nat → List Char → Option (List Json × List Char)
  | 0, _ => none
  | fuel + 1, cs =>
    match parseJsonValue fuel cs with
    | none => none
    | some (v, rem) =>
      match skipWs rem with
      | ',' :: rest =>
        (match parseArrItems fuel rest with
         | some (vs, rem2) => some (v :: vs, rem2)
         | none => none)
      | ']' :: rest => some ([v], rest)
      | _ => none

def parseObjItems : Nat → List Char → Option (List (String × Json) × List Char)
  | 0, _ => none
  | fuel + 1, cs =>
    match skipWs cs with
    | '"' :: rest =>
      (match parseStringBody rest with
       | none => none
       | some (key, rem) =>
         match skipWs rem with
         | ':' :: rest2 =>
           (match parseJsonValue fuel rest2 with
            | none => none
            | some (v, rem2) =>
              match skipWs rem2 with
              | ',' :: rest3 =>
                (match parseObjItems fuel rest3 with
                 | some (fields, rem3) => some ((⟨key⟩, v) :: fields, rem3)
                 | none => none)
              | '}' :: rest3 => some ([(⟨key⟩, v)], rest3)
              | _ => none)
         | _ => none)
    | _ => none

end

/-- `json.loads`: parse one value and insist nothing but whitespace follows
("Extra data" otherwise). -/
def pyJsonLoads (s : String) : Option Json :=
  match parseJsonValue (s.length + 1) s.data with
  | some (v, rem) => if skipWs rem = [] then some v else none
  | none => none

/-! ## Python string helpers -/

/-- The characters Python's `str.strip()` removes, which are also the ASCII
characters matched by the regex class `\s`. -/
def isPySpace (c : Char) : Bool :=
  c = ' ' || c = '\t' || c = '\n' || c = '\r' || c.toNat = 11 || c.toNat = 12

/-- Python `str.strip()`. -/
def pyStrip (l : List Char) : List Char :=
  ((l.dropWhile isPySpace).reverse.dropWhile isPySpace).reverse

/-- Trailing-whitespace removal only. -/
def pyStripRight (l : List Char) : List Char :=
  (l.reverse.dropWhile isPySpace).reverse

def pyStripS (s : String) : String := ⟨pyStrip s.data⟩

/-! ## `clean_json_string` (src/agents/parsing.py, lines 54-77)

Three regex substitutions applied in order:
1. `re.sub(r",(\s*[}\]])", r"\1", s)` - trailing commas before a closing
   delimiter;
2. `re.sub(r"//.*?\n", "\n", s)` - line comments;
3. `re.sub(r"/\*.*?\*/", "", s, flags=re.DOTALL)` - block comments.

Each is embedded as a single left-to-right scan with the same
leftmost/non-greedy match semantics as `re.sub`.  For pass 1 the scan
re-examines the whitespace-and-closer region the regex engine would skip
past; since no match can begin inside that region (a match begins with a
comma) the result is identical. -/

/-- Does the list begin with `\s*` followed by `}` or `]`?  (The lookahead
of substitution 1.) -/
def wsCloser : List Char → Bool
  | [] => false
  | c :: rest =>
    if c = '}' || c = ']' then true
    else if isPySpace c then wsCloser rest
    else false

/-- Substitution 1: drop any comma followed by whitespace and a closing
delimiter. -/
def sub1 : List Char → List Char
  | [] => []
  | ',' :: rest => if wsCloser rest then sub1 rest else ',' :: sub1 rest
  | c :: rest => c :: sub1 rest

/-- Substitution 2, as a scan.  `none` is normal mode; `some buf` buffers a
tentative line comment (in reverse) whose match is confirmed only when a
newline arrives — `//` with no later newline is left untouched, exactly as
the regex `//.*?\n` leaves it. -/
def sub2Go : Option (List Char) → List Char → List Char
  | none, [] => []
  | none, '/' :: '/' :: rest => sub2Go (some ['/', '/']) rest
  | none, c :: rest => c :: sub2Go none rest
  | some buf, [] => buf.reverse
  | some _, '\n' :: rest => '\n' :: sub2Go none rest
  | some buf, c :: rest => sub2Go (some (c :: buf)) rest

/-- Substitution 3, as a scan; `some buf` buffers a tentative block comment
whose match is confirmed by the first `*/`. -/
def sub3Go : Option (List Char) → List Char → List Char
  | none, [] => []
  | none, '/' :: '*' :: rest => sub3Go (some ['*', '/']) rest
  | none, c :: rest => c :: sub3Go none rest
  | some buf, [] => buf.reverse
  | some _, '*' :: '/' :: rest => sub3Go none rest
  | some buf, c :: rest => sub3Go (some (c :: buf)) rest

/-- `clean_json_string` (the spec's `repair`). -/
def clean_json_string (s : String) : String :=
  ⟨sub3Go none (sub2Go none (sub1 s.data))⟩

/-! ## `extract_json_from_text` (src/agents/parsing.py, lines 16-51) -/

/-- Leftmost occurrence of `pat`: the part before the match and the part
after it. -/
def findSubSplit (pat : List Char) : List Char → Option (List Char × List Char)
  | [] => none
  | c :: rest =>
    if pat.isPrefixOf (c :: rest) then some ([], (c :: rest).drop pat.length)
    else
      match findSubSplit pat rest with
      | some (pre, post) => some (c :: pre, post)
      | none => none

/-- The leftmost-then-lazy match of an `re.search` for
`tag + r"\s*(.*?)\s*" + "```"` (DOTALL): the text between the first
occurrence of `tag` and the next triple backtick, with `group(1).strip()`
folded in.  If the first `tag` has no closing fence, no later one can
either (any later occurrence of `tag` contains a triple backtick), so no
backtracking is needed. -/
def fenceMatch (tag : List Char) (s : List Char) : Option (List Char) :=
  match findSubSplit tag s with
  | none => none
  | some (_, after) =>
    match findSubSplit ("```".data) after with
    | none => none
    | some (content, _) => some (pyStrip content)

/-- Prefix of `l` up to and including the last occurrence of `d` (the
greedy `.*` of pattern 3). -/
def takeThroughLast (d : Char) (l : List Char) : List Char :=
  (l.reverse.dropWhile (fun c => !(c = d))).reverse

/-- The `re.search` for `r"(\{.*\}|\[.*\])"` (DOTALL): at the leftmost
viable position try the brace alternative, then the bracket one; `.*` is
greedy so the match runs to the last closing delimiter. -/
def braceMatch : List Char → Option (List Char)
  | [] => none
  | c :: rest =>
    if c = '{' && rest.contains '}' then some (c :: takeThroughLast '}' rest)
    else if c = '[' && rest.contains ']' then some (c :: takeThroughLast ']' rest)
    else braceMatch rest

/-- `extract_json_from_text` (the spec's `extract_payload`): JSON fence,
then any fence, then raw brace/bracket structure, then the whole trimmed
text.  Total - every branch returns; the function has no failure path. -/
def extract_json_from_text (text : String) : String :=
  match fenceMatch ("```json".data) text.data with
  | some r => ⟨r⟩
  | none =>
    match fenceMatch ("```".data) text.data with
    | some r => ⟨r⟩
    | none =>
      match braceMatch text.data with
      | some r => ⟨pyStrip r⟩
      | none => ⟨pyStrip text.data⟩

/-! ## Markdown-fence stripping shared by Coordinator and Researcher

`src/agents/coordinator.py` lines 54-65 and `src/agents/researcher.py`
lines 74-85 contain the identical block:

```
if '```' in response_text:
    parts = response_text.split('```')
    if len(parts) >= 3:
        response_text = parts[1]
        if response_text.strip().startswith('json'):
            response_text = response_text.strip()[4:]
        response_text = response_text.strip()
else:
    response_text = response_text.strip()
```
-/

/-- Python's `'```' in text`. -/
def hasTicks : List Char → Bool
  | '`' :: '`' :: '`' :: _ => true
  | _ :: rest => hasTicks rest
  | [] => false

/-- Python's `text.split('```')` (leftmost, non-overlapping separators);
`acc` holds the current token in reverse. -/
def pySplitTicksGo (acc : List Char) : List Char → List (List Char)
  | '`' :: '`' :: '`' :: rest => acc.reverse :: pySplitTicksGo [] rest
  | c :: rest => pySplitTicksGo (c :: acc) rest
  | [] => [acc.reverse]

def pySplitTicks (l : List Char) : List (List Char) := pySplitTicksGo [] l

/-- The fence-stripping block shared by `coordinate` and `research`. -/
def stripFenced (rt : List Char) : List Char :=
  if hasTicks rt then
    let parts := pySplitTicks rt
    if 3 ≤ parts.length then
      let t1 := parts.getD 1 []
      let t2 := if "json".data.isPrefixOf (pyStrip t1) then (pyStrip t1).drop 4 else t1
      pyStrip t2
    else rt
  else pyStrip rt

/-! ## The model-call engine (`BaseAgent.call_claude`, src/agents/base.py)

The Anthropic model service is embedded as a finite script of responses,
consumed in order (exactly how the repository's own tests drive
`client.messages.create` with `side_effect` lists).  Conversation turns,
content blocks and tool results mirror the dict shapes built in
`call_claude`. -/

/-- One content block of a model response: text, or a tool-use request
carrying the invocation id, tool name and arguments. -/
inductive ContentBlock where
  | text (s : String)
  | toolUse (id name : String) (input : List (String × Json))

/-- A scripted model response: `stop_reason` plus content blocks. -/
structure MResponse where
  stop_reason : String
  content : List ContentBlock

/-- One `tool_result` entry, as built at src/agents/base.py lines 102-114.
The success path builds the dict without an `is_error` key, which the
Anthropic API reads as `is_error = false`. -/
structure ToolResult where
  tool_use_id : String
  content : String
  is_error : Bool

/-- The `content` field of a conversation turn: the initial user text, an
assistant turn echoing the model's blocks, or a batched tool-result turn. -/
inductive MsgContent where
  | text (s : String)
  | blocks (bs : List ContentBlock)
  | results (rs : List ToolResult)

/-- One conversation turn (`{"role": ..., "content": ...}`). -/
structure Msg where
  role : String
  content : MsgContent

/-- A tool dispatcher: Python's `tool_executor(tool_name, tool_input)`,
with a raised exception embedded as `Except.error` carrying `str(e)`. -/
abbrev ToolExec : Type := String → List (String × Json) → Except String Json

/-- Engine-level failures of `call_claude`: the `ValueError` for a tool-use
stop with no dispatcher bound, and exhaustion of the scripted model
service (a transport failure in the embedding). -/
inductive EngineErr where
  | noToolExecutor
  | scriptExhausted
deriving DecidableEq

/-- The per-block half of the tool-use loop (src/agents/base.py lines
92-114): execute each `tool_use` block, converting a raised exception into
a failure-flagged result, and record each dispatcher invocation. -/
def execBlocks (ex : ToolExec) : List ContentBlock → List ToolResult × List (String × List (String × Json))
  | [] => ([], [])
  | .text _ :: rest => execBlocks ex rest
  | .toolUse id name input :: rest =>
    let r : ToolResult :=
      match ex name input with
      | .ok v => ⟨id, Json.dumps v, false⟩
      | .error e => ⟨id, Json.dumps (.obj [("error", .str e)]), true⟩
    let t := execBlocks ex rest
    (r :: t.1, (name, input) :: t.2)

/-- The tool-use loop of `call_claude` (src/agents/base.py lines 79-123).
Besides the final response it returns the audit data the claims are about:
the message sequence of every issued request, every dispatcher invocation,
and the unconsumed rest of the script. -/
def callLoop (ex? : Option ToolExec) :
    List MResponse → List Msg → List (List Msg) → List (String × List (String × Json)) →
    Except EngineErr (MResponse × List (List Msg) × List (String × List (String × Json)) × List MResponse)
  | [], _, _, _ => .error .scriptExhausted
  | r :: rest, messages, reqs, disp =>
    let reqs2 := reqs ++ [messages]
    if r.stop_reason = "tool_use" then
      match ex? with
      | none => .error .noToolExecutor
      | some ex =>
        let msgs1 := messages ++ [Msg.mk "assistant" (.blocks r.content)]
        let t := execBlocks ex r.content
        callLoop ex? rest (msgs1 ++ [Msg.mk "user" (.results t.1)]) reqs2 (disp ++ t.2)
    else .ok (r, reqs2, disp, rest)

/-- `BaseAgent.call_claude`: start from the single user turn and run the
tool-use loop. -/
def call_claude (ex? : Option ToolExec) (script : List MResponse) (user_message : String) :
    Except EngineErr (MResponse × List (List Msg) × List (String × List (String × Json)) × List MResponse) :=
  callLoop ex? script [Msg.mk "user" (.text user_message)] [] []

/-- `BaseAgent.parse_response` (src/agents/base.py lines 125-148): the text
of the first content block, `ValueError` otherwise. -/
def parse_response (m : MResponse) : Except String String :=
  match m.content with
  | [] => .error "Message has no content"
  | .text s :: _ => .ok s
  | .toolUse _ _ _ :: _ => .error "Unexpected content block type"

/-! ## The tool dispatcher (`tool_executor`, src/orchestration/workflow.py
lines 42-56)

`execute_web_search` (a thin wrapper over the external Tavily client,
`src/tools/web_search.py`) is the search collaborator; it is passed in as
a function returning the already-`model_dump`ed result list, with a raised
exception embedded as `Except.error`. -/

def tool_executor (search : Json → Except String (List Json)) : ToolExec :=
  fun tool_name tool_input =>
    if tool_name = "web_search" then
      match tool_input.lookup "query" with
      | none => .error "'query'"
      | some q =>
        match search q with
        | .ok results => .ok (.arr results)
        | .error e => .error e
    else .error ("Unknown tool: " ++ tool_name)

/-! ## Coordinator (`CoordinatorAgent.coordinate`, src/agents/coordinator.py) -/

/-- The Python exception kinds the agent layer raises. -/
inductive AgentErr where
  | valueError (msg : String)
  | runtimeError (msg : String)
  | typeError (msg : String)
deriving DecidableEq

def Json.isStr : Json → Bool
  | .str _ => true
  | _ => false

def Json.asStr : Json → String
  | .str s => s
  | _ => ""

def Json.isArr : Json → Bool
  | .arr _ => true
  | _ => false

/-- The validation stage of `coordinate` (src/agents/coordinator.py lines
74-86): the parsed payload must be a list, of 2-4 items, all strings.
Note the code never checks items for non-emptiness. -/
def coordValidate : Json → Except AgentErr (List String)
  | .arr items =>
    if items.length < 2 || 4 < items.length then
      .error (.valueError ("Expected 2-4 subtasks, got " ++ toString items.length))
    else if items.all Json.isStr then .ok (items.map Json.asStr)
    else .error (.valueError "All subtasks must be strings")
  | _ => .error (.valueError "Expected list of subtasks")

/-- The response-text half of `coordinate` (lines 54-86): strip the fence,
`json.loads` (a decode error becomes `ValueError`), then the
validations. -/
def coordinateText (response_text : String) : Except AgentErr (List String) :=
  match pyJsonLoads ⟨stripFenced response_text.data⟩ with
  | none => .error (.valueError "Failed to parse response as JSON")
  | some j => coordValidate j

/-- `coordinate` end to end over a scripted model: `call_claude` with no
tools and no dispatcher, `parse_response`, then `coordinateText`.  Engine
and content failures are re-raised as `RuntimeError("Coordination
failed")` by the `except Exception` arm; the returned script remainder
feeds the next agent. -/
def coordinateAgent (script : List MResponse) (query : String) :
    Except AgentErr (List String × List MResponse) :=
  match call_claude none script query with
  | .error _ => .error (.runtimeError "Coordination failed")
  | .ok (resp, _, _, rest) =>
    match parse_response resp with
    | .error _ => .error (.runtimeError "Coordination failed")
    | .ok text =>
      match coordinateText text with
      | .error e => .error e
      | .ok subtasks => .ok (subtasks, rest)

/-! ## Researcher (`ResearcherAgent.research`, src/agents/researcher.py) -/

/-- Python's `key in result` for a `json.loads` value: key membership on a
dict, element equality on a list, substring test on a string, and a
`TypeError` on the remaining non-container values. -/
def pyInResult (key : String) (j : Json) : Except AgentErr Bool :=
  match j with
  | .obj fields => .ok (fields.any (fun kv => kv.1 = key))
  | .arr items =>
    .ok (items.any (fun it => match it with | .str s => s = key | _ => false))
  | .str s => .ok (findSubSplit key.data s.data).isSome
  | _ => .error (.typeError "argument of type is not iterable")

/-- Python's `result[key]` for a `json.loads` value. -/
def pyGetItem (key : String) (j : Json) : Except AgentErr Json :=
  match j with
  | .obj fields =>
    (match fields.lookup key with
     | some v => .ok v
     | none => .error (.typeError key))
  | _ => .error (.typeError "list indices must be integers, not str")

/-- The response-text half of `research` (lines 74-109): fence stripping,
`json.loads`, then the field checks - `subtask` present, `findings`
present, `findings` a list.  The parsed dict itself is returned; nothing
checks that `findings` is non-empty. -/
def researchText (response_text : String) : Except AgentErr Json :=
  match pyJsonLoads ⟨stripFenced response_text.data⟩ with
  | none => .error (.valueError "Failed to parse response as JSON")
  | some result =>
    match pyInResult "subtask" result with
    | .error e => .error e
    | .ok has1 =>
      if !has1 then .error (.valueError "Response missing required field: subtask")
      else
        match pyInResult "findings" result with
        | .error e => .error e
        | .ok has2 =>
          if !has2 then .error (.valueError "Response missing required field: findings")
          else
            match pyGetItem "findings" result with
            | .error e => .error e
            | .ok f =>
              if f.isArr then .ok result
              else .error (.valueError "findings must be a list")

/-- `research(subtask, tools)` as declared at src/agents/researcher.py line
29: its `call_claude` passes `tools` but never a `tool_executor`, so the
engine runs with no dispatcher bound. -/
def researchAgent (script : List MResponse) (subtask : String) :
    Except AgentErr (Json × List MResponse) :=
  match call_claude none script subtask with
  | .error _ => .error (.runtimeError "Research failed")
  | .ok (resp, _, _, rest) =>
    match parse_response resp with
    | .error _ => .error (.runtimeError "Research failed")
    | .ok text =>
      match researchText text with
      | .error e => .error e
      | .ok result => .ok (result, rest)

/-! ## The workflow research phase (src/orchestration/workflow.py, lines
69-85)

The orchestrator calls
`researcher.research(subtask, tools=..., tool_executor=tool_executor)`,
but `ResearcherAgent.research` declares only the keyword-bindable
parameters `subtask` and `tools`.  Python's call protocol is embedded
explicitly: a keyword call binds only when every keyword argument names a
declared parameter, and otherwise raises `TypeError` before the body
runs. -/

/-- Can a Python call with the given keyword-argument names bind against
the given declared parameter names? -/
def pyKwargsBindable (params kwargs : List String) : Bool :=
  kwargs.all (fun k => params.contains k)

/-- Keyword-bindable parameters of `ResearcherAgent.research`
(src/agents/researcher.py lines 29-32, `self` excluded). -/
def research_kw_params : List String := ["subtask", "tools"]

/-- Keyword-argument names used at the call site
src/orchestration/workflow.py lines 79-83. -/
def workflow_research_kwargs : List String := ["tools", "tool_executor"]

/-- The `for subtask in subtasks` loop of `run_research_workflow`: each
iteration performs the keyword call to `research`; an unbindable call
raises `TypeError` and aborts the run (the orchestrator catches
nothing). -/
def researchPhase (script : List MResponse) :
    List String → Except AgentErr (List Json × List MResponse)
  | [] => .ok ([], script)
  | t :: rest =>
    if pyKwargsBindable research_kw_params workflow_research_kwargs then
      match researchAgent script t with
      | .error e => .error e
      | .ok (r, script2) =>
        match researchPhase script2 rest with
        | .ok (rs, script3) => .ok (r :: rs, script3)
        | .error e => .error e
    else .error (.typeError "research() got an unexpected keyword argument 'tool_executor'")

/-- `run_research_workflow` through its coordination and research states
(src/orchestration/workflow.py lines 68-85): the part of the orchestrator
that produces the `subtasks` and `research_results` fields of the final
`WorkflowResult`. -/
def workflowThroughResearch (script : List MResponse) (query : String) :
    Except AgentErr (List String × List Json × List MResponse) :=
  match coordinateAgent script query with
  | .error e => .error e
  | .ok (subtasks, script2) =>
    match researchPhase script2 subtasks with
    | .error e => .error e
    | .ok (results, script3) => .ok (subtasks, results, script3)

/-! ## Pydantic models (`src/agents/models.py`)

`Finding` has three string fields, each `min_length=1`; `ResearchResult`
has a non-empty `subtask` and a `findings` list whose `field_validator`
rejects emptiness.  Validation of an explicitly supplied value is
embedded; a missing field is `none`. -/

structure Finding where
  claim : String
  source : String
  details : String
deriving DecidableEq

/-- A candidate `Finding` value before validation: each field present or
missing. -/
structure FindingFields where
  claim : Option String
  source : Option String
  details : Option String

/-- Pydantic validation of one `Finding`: every field present and of
length at least 1. -/
def validateFinding (r : FindingFields) : Option Finding :=
  match r.claim, r.source, r.details with
  | some c, some s, some d =>
    if 1 ≤ c.length ∧ 1 ≤ s.length ∧ 1 ≤ d.length then some ⟨c, s, d⟩ else none
  | _, _, _ => none

/-- The `validate_findings` `field_validator` of `ResearchResult`
(src/agents/models.py lines 20-27): reject an empty list. -/
def validate_findings (v : List Finding) : Option (List Finding) :=
  if v.length = 0 then none else some v

structure ResearchResult where
  subtask : String
  findings : List Finding
deriving DecidableEq

/-- Pydantic validation of a `ResearchResult` from explicitly supplied
field values: `subtask` present and non-empty, every finding valid, and
the findings list non-empty per `validate_findings`. -/
def validateResearchResult (subtask : Option String) (findings : List FindingFields) :
    Option ResearchResult :=
  match subtask with
  | some st =>
    if 1 ≤ st.length then
      match findings.mapM validateFinding with
      | some fs =>
        (match validate_findings fs with
         | some fs2 => some ⟨st, fs2⟩
         | none => none)
      | none => none
    else none
  | none => none

/-! ## Theorems -/

/-- C4: for every model response whose stop reason requests tool use while
no tool dispatcher was supplied to `call_claude`, the call fails
immediately with the configuration error ("Tool use requested but no
tool_executor provided"); the tool request is never silently skipped. -/
theorem call_claude_requires_executor (r : MResponse) (rest : List MResponse) (u : String)
    (hstop : r.stop_reason = "tool_use") :
    call_claude none (r :: rest) u = .error .noToolExecutor := by
  simp [call_claude, callLoop, hstop]

theorem call_claude_requires_executor_witness :
    (MResponse.mk "tool_use" [.toolUse "t1" "web_search" []]).stop_reason = "tool_use" ∧
    call_claude none [MResponse.mk "tool_use" [.toolUse "t1" "web_search" []]] "hi" =
      .error .noToolExecutor :=
  ⟨rfl, call_claude_requires_executor _ [] "hi" rfl⟩

/-- C2: with the model service scripted to request exactly one tool call
and then give a final answer, `call_claude` issues exactly two requests
(the request log has exactly the two message sequences shown), invokes the
dispatcher exactly once with the requested name and arguments, and the
second request's turn sequence carries the tool result keyed by the
original invocation id, batched into a single user turn. -/
theorem call_claude_tool_loop (ex : ToolExec) (id name u : String)
    (input : List (String × Json)) (v : Json) (final : MResponse)
    (hstop : ¬ final.stop_reason = "tool_use")
    (hex : ex name input = .ok v) :
    call_claude (some ex) [⟨"tool_use", [.toolUse id name input]⟩, final] u =
      .ok (final,
        [[⟨"user", .text u⟩],
         [⟨"user", .text u⟩, ⟨"assistant", .blocks [.toolUse id name input]⟩,
          ⟨"user", .results [⟨id, Json.dumps v, false⟩]⟩]],
        [(name, input)], []) := by
  simp [call_claude, callLoop, execBlocks, hex, hstop]

theorem call_claude_tool_loop_witness :
    ¬ (MResponse.mk "end_turn" [.text "done"]).stop_reason = "tool_use" ∧
    call_claude (some (fun _ _ => .ok (Json.num 7)))
      [⟨"tool_use", [.toolUse "tid" "web_search" [("query", .str "rust")]]⟩,
       ⟨"end_turn", [.text "done"]⟩] "u" =
      .ok (⟨"end_turn", [.text "done"]⟩,
        [[⟨"user", .text "u"⟩],
         [⟨"user", .text "u"⟩,
          ⟨"assistant", .blocks [.toolUse "tid" "web_search" [("query", .str "rust")]]⟩,
          ⟨"user", .results [⟨"tid", Json.dumps (Json.num 7), false⟩]⟩]],
        [("web_search", [("query", Json.str "rust")])], []) :=
  ⟨by decide,
   call_claude_tool_loop (fun _ _ => .ok (Json.num 7)) "tid" "web_search" "u"
     [("query", .str "rust")] (Json.num 7) ⟨"end_turn", [.text "done"]⟩ (by decide) rfl⟩

/-- C3: a dispatcher exception never propagates out of `call_claude`: the
engine converts it into a failure-flagged tool result (`is_error = true`,
content `{"error": str(e)}`), still sends the follow-up request, and the
call completes when the model then answers.  In particular the workflow's
dispatcher raises `"Unknown tool: <name>"` for every unknown tool name, so
the failure message names the offending tool. -/
theorem call_claude_tool_error_recovery :
    (∀ (ex : ToolExec) (id name u e : String) (input : List (String × Json)) (final : MResponse),
      ¬ final.stop_reason = "tool_use" → ex name input = .error e →
      call_claude (some ex) [⟨"tool_use", [.toolUse id name input]⟩, final] u =
        .ok (final,
          [[⟨"user", .text u⟩],
           [⟨"user", .text u⟩, ⟨"assistant", .blocks [.toolUse id name input]⟩,
            ⟨"user", .results [⟨id, Json.dumps (.obj [("error", .str e)]), true⟩]⟩]],
          [(name, input)], [])) ∧
    (∀ (search : Json → Except String (List Json)) (name : String)
       (input : List (String × Json)),
      ¬ name = "web_search" →
      tool_executor search name input = .error ("Unknown tool: " ++ name)) := by
  constructor
  · intro ex id name u e input final hstop hex
    simp [call_claude, callLoop, execBlocks, hex, hstop]
  · intro search name input hname
    simp [tool_executor, hname]

theorem call_claude_tool_error_recovery_witness :
    ¬ (MResponse.mk "end_turn" [.text "done"]).stop_reason = "tool_use" ∧
    ¬ "bad_tool" = "web_search" ∧
    call_claude (some (tool_executor (fun _ => .ok [])))
      [⟨"tool_use", [.toolUse "tid" "bad_tool" [("query", .str "x")]]⟩,
       ⟨"end_turn", [.text "done"]⟩] "u" =
      .ok (⟨"end_turn", [.text "done"]⟩,
        [[⟨"user", .text "u"⟩],
         [⟨"user", .text "u"⟩,
          ⟨"assistant", .blocks [.toolUse "tid" "bad_tool" [("query", .str "x")]]⟩,
          ⟨"user", .results
            [⟨"tid", Json.dumps (.obj [("error", .str "Unknown tool: bad_tool")]), true⟩]⟩]],
        [("bad_tool", [("query", Json.str "x")])], []) :=
  ⟨by decide, by decide,
   call_claude_tool_error_recovery.1 (tool_executor (fun _ => .ok [])) "tid" "bad_tool" "u"
     "Unknown tool: bad_tool" [("query", .str "x")] ⟨"end_turn", [.text "done"]⟩ (by decide)
     (call_claude_tool_error_recovery.2 (fun _ => .ok []) "bad_tool"
       [("query", .str "x")] (by decide))⟩

/-- Substitution 1 never fires on a comma-free string. -/
theorem sub1_id (l : List Char) (h : ',' ∉ l) : sub1 l = l := by
  induction l with
  | nil => rfl
  | cons c rest ih =>
    rw [List.mem_cons, not_or] at h
    obtain ⟨h1, h2⟩ := h
    have hc : ¬ c = ',' := fun e => h1 e.symm
    rw [sub1.eq_def]
    split
    · rename_i heq; exact absurd heq (by simp)
    · rename_i heq; injection heq with e1 e2; exact absurd e1 hc
    · rename_i c2 rest2 heq; injection heq with e1 e2
      subst e1; subst e2; rw [ih h2]

/-- Substitution 2 never fires on a slash-free string. -/
theorem sub2Go_id (l : List Char) (h : '/' ∉ l) : sub2Go none l = l := by
  induction l with
  | nil => rfl
  | cons c rest ih =>
    rw [List.mem_cons, not_or] at h
    obtain ⟨h1, h2⟩ := h
    rw [sub2Go.eq_def]
    split <;> simp_all

/-- Substitution 3 never fires on a slash-free string. -/
theorem sub3Go_id (l : List Char) (h : '/' ∉ l) : sub3Go none l = l := by
  induction l with
  | nil => rfl
  | cons c rest ih =>
    rw [List.mem_cons, not_or] at h
    obtain ⟨h1, h2⟩ := h
    rw [sub3Go.eq_def]
    split <;> simp_all

/-- C5 counterexample: `clean_json_string` is not idempotent.  On `",,]"`
one application removes only the inner trailing comma (the scan finds no
closer after the first comma), giving `",]"`; a second application removes
the remaining comma, giving `"]"`. -/
theorem clean_json_string_not_idempotent :
    ¬ clean_json_string (clean_json_string ",,]") = clean_json_string ",,]" := by
  decide

/-- C5 (amended): `clean_json_string` is not idempotent in general - a
second application can strip further trailing commas uncovered by the
first (and comment removal can likewise uncover new trailing commas).  It
is idempotent on candidate strings containing no comma and no slash, where
it is the identity. -/
theorem clean_json_string_idempotent_of_no_comma_slash (s : String)
    (h1 : ',' ∉ s.data) (h2 : '/' ∉ s.data) :
    clean_json_string (clean_json_string s) = clean_json_string s := by
  have fix : clean_json_string s = s := by
    unfold clean_json_string
    rw [sub1_id s.data h1, sub2Go_id s.data h2, sub3Go_id s.data h2]
  rw [fix, fix]

theorem clean_json_string_idempotent_witness :
    ',' ∉ "[1]".data ∧ '/' ∉ "[1]".data ∧
    clean_json_string (clean_json_string "[1]") = clean_json_string "[1]" :=
  ⟨by decide, by decide,
   clean_json_string_idempotent_of_no_comma_slash "[1]" (by decide) (by decide)⟩

/-- C10: the line-comment stripping of `clean_json_string` applies inside
JSON string literals.  The candidate `{"source": "https://example.com"}`
followed by a newline is valid JSON, yet the repair deletes everything
from the `//` of the URL to the end of the line, leaving an unparseable
candidate. -/
theorem clean_json_string_mangles_string_literals :
    pyJsonLoads "\x7b\"source\": \"https://example.com\"\x7d\n" =
      some (.obj [("source", .str "https://example.com")]) ∧
    clean_json_string "\x7b\"source\": \"https://example.com\"\x7d\n" =
      "\x7b\"source\": \"https:\n" ∧
    pyJsonLoads (clean_json_string "\x7b\"source\": \"https://example.com\"\x7d\n") = none := by
  refine ⟨rfl, by decide, rfl⟩

/-- C8 counterexample: a Coordinator model response consisting of numbered
plain-text lines makes `coordinate` fail with the JSON `ValueError`; no
line-based fallback extractor runs (the claimed fallback would instead
succeed with the two stripped lines). -/
theorem coordinate_plain_text_fails :
    coordinateText "1. First subtask\n2. Second subtask" =
      .error (.valueError "Failed to parse response as JSON") := by
  rfl

/-- C8 (amended): the Coordinator has no plain-text fallback.  Whenever
`json.loads` fails on the fence-stripped response text, `coordinate`
signals the domain failure directly.  (`parse_llm_response` in
src/agents/parsing.py does accept an optional `fallback_parser` argument,
but no line-based extractor exists in the repository and the Coordinator
never calls `parse_llm_response`.) -/
theorem coordinate_no_fallback (rt : String)
    (h : pyJsonLoads ⟨stripFenced rt.data⟩ = none) :
    coordinateText rt = .error (.valueError "Failed to parse response as JSON") := by
  unfold coordinateText
  rw [h]

theorem coordinate_no_fallback_witness :
    pyJsonLoads ⟨stripFenced "- First\n- Second".data⟩ = none ∧
    coordinateText "- First\n- Second" =
      .error (.valueError "Failed to parse response as JSON") :=
  ⟨rfl, coordinate_no_fallback "- First\n- Second" rfl⟩

/-- Brace/bracket structure as the regex alternative sees it: an opening
delimiter somewhere before a matching closing delimiter. -/
def hasPairB (a b : Char) : List Char → Bool
  | [] => false
  | c :: rest => (c = a && rest.contains b) || hasPairB a b rest

/-- If `pat` occurs nowhere in `l`, the scan finds nothing. -/
theorem findSubSplit_none_of_not_infix (pat l : List Char) (h : ¬ pat <:+: l) :
    findSubSplit pat l = none := by
  induction l with
  | nil => rfl
  | cons c rest ih =>
    have hp : ¬ pat.isPrefixOf (c :: rest) = true := fun hpre =>
      h (List.IsPrefix.isInfix (List.isPrefixOf_iff_prefix.mp hpre))
    simp only [findSubSplit, if_neg hp, ih (fun hinf => h (List.infix_cons hinf))]

/-- Without a pair of matching delimiters, the brace/bracket search of
extraction step 3 fails. -/
theorem braceMatch_none (l : List Char) (hbr : hasPairB '{' '}' l = false)
    (hbk : hasPairB '[' ']' l = false) : braceMatch l = none := by
  induction l with
  | nil => rfl
  | cons c rest ih =>
    simp only [hasPairB, Bool.or_eq_false_iff] at hbr hbk
    rw [braceMatch.eq_def]
    simp only [hbr.1, hbk.1, if_false, Bool.false_eq_true]
    exact ih hbr.2 hbk.2

/-- C6: on text with no fenced code block (no triple backtick anywhere) and
no brace/bracket structure, `extract_json_from_text` returns the whole
text trimmed.  The function is total - it raises on no input at all, so in
particular it signals extraction failure only under the claimed
conditions, vacuously. -/
theorem extract_json_from_text_whole_text (s : String)
    (hfence : ¬ ("```".data <:+: s.data))
    (hbr : hasPairB '{' '}' s.data = false)
    (hbk : hasPairB '[' ']' s.data = false) :
    extract_json_from_text s = pyStripS s := by
  have hjson : findSubSplit ("```json".data) s.data = none := by
    refine findSubSplit_none_of_not_infix _ _ (fun hinf => hfence ?_)
    have hpre : ("```".data) <+: ("```json".data) := by decide
    exact List.IsInfix.trans hpre.isInfix hinf
  have hany : findSubSplit ("```".data) s.data = none :=
    findSubSplit_none_of_not_infix _ _ hfence
  unfold extract_json_from_text fenceMatch
  rw [hjson, hany, braceMatch_none s.data hbr hbk]
  rfl

theorem extract_json_from_text_whole_text_witness :
    ¬ ("```".data <:+: "tell me a story".data) ∧
    hasPairB '{' '}' "tell me a story".data = false ∧
    hasPairB '[' ']' "tell me a story".data = false ∧
    extract_json_from_text "tell me a story" = pyStripS "tell me a story" :=
  ⟨by decide, by decide, by decide,
   extract_json_from_text_whole_text "tell me a story" (by decide) (by decide) (by decide)⟩

/-- Validating a list of findings succeeds elementwise, preserving
length. -/
theorem mapM_validateFinding_isSome (fs : List FindingFields)
    (hall : ∀ r ∈ fs, (validateFinding r).isSome = true) :
    ∃ l, fs.mapM validateFinding = some l ∧ l.length = fs.length := by
  induction fs with
  | nil => exact ⟨[], rfl, rfl⟩
  | cons r rest ih =>
    have hr := hall r (List.mem_cons_self r rest)
    obtain ⟨f, hf⟩ := Option.isSome_iff_exists.mp hr
    obtain ⟨l, hl, hlen⟩ := ih (fun x hx => hall x (List.mem_cons_of_mem r hx))
    refine ⟨f :: l, ?_, by simp [hlen]⟩
    rw [List.mapM_cons, hf, hl]
    rfl

/-- C9: `ResearchResult` validation enforces the at-least-one-finding
invariant through its `validate_findings` field validator: with a valid
(non-empty) subtask, an explicitly supplied empty findings list always
fails validation, and a non-empty list whose entries carry all three
required fields, each non-empty, always validates. -/
theorem validateResearchResult_findings (st : String) (h : 1 ≤ st.length) :
    validateResearchResult (some st) [] = none ∧
    (∀ fs : List FindingFields, fs ≠ [] →
      (∀ r ∈ fs, ∃ c s d, r = ⟨some c, some s, some d⟩ ∧
        1 ≤ c.length ∧ 1 ≤ s.length ∧ 1 ≤ d.length) →
      (validateResearchResult (some st) fs).isSome = true) := by
  constructor
  · simp only [validateResearchResult]
    rw [if_pos h]
    rfl
  · intro fs hne hall
    have hv : ∀ r ∈ fs, (validateFinding r).isSome = true := by
      intro r hr
      obtain ⟨c, s, d, rfl, hc, hs, hd⟩ := hall r hr
      simp [validateFinding, hc, hs, hd]
    obtain ⟨l, hl, hlen⟩ := mapM_validateFinding_isSome fs hv
    simp only [validateResearchResult]
    rw [if_pos h, hl]
    have hvf : validate_findings l = some l := by
      unfold validate_findings
      rw [if_neg]
      rw [hlen]
      exact fun hz => hne (List.length_eq_zero.mp hz)
    simp [hvf]

theorem validateResearchResult_findings_witness :
    1 ≤ "t".length ∧
    validateResearchResult (some "t") [] = none ∧
    (validateResearchResult (some "t") [⟨some "c", some "s", some "d"⟩]).isSome = true :=
  ⟨by decide, (validateResearchResult_findings "t" (by decide)).1,
   (validateResearchResult_findings "t" (by decide)).2 [⟨some "c", some "s", some "d"⟩]
     (by simp)
     (by
       intro r hr
       simp only [List.mem_singleton] at hr
       subst hr
       exact ⟨"c", "s", "d", rfl, by decide, by decide, by decide⟩)⟩

/-! ## Auxiliary list lemmas for trimming and fence splitting -/

/-- Dual of `List.dropWhile_append` for right-trimming. -/
theorem rdropWhile_append {α : Type} [DecidableEq α] (q : α → Bool) (a b : List α) :
    List.rdropWhile q (a ++ b) =
      if List.rdropWhile q b = [] then List.rdropWhile q a else a ++ List.rdropWhile q b := by
  by_cases hb : List.rdropWhile q b = []
  · rw [if_pos hb]
    rw [List.rdropWhile] at hb
    have hb2 : List.dropWhile q b.reverse = [] := List.reverse_eq_nil_iff.mp hb
    rw [List.rdropWhile, List.reverse_append, List.dropWhile_append, hb2]
    simp only [List.isEmpty_nil, if_true]
    rfl
  · rw [if_neg hb]
    have hb2 : ¬ (List.dropWhile q b.reverse).isEmpty = true := by
      rw [List.isEmpty_iff]
      intro hnil
      exact hb (by rw [List.rdropWhile, hnil, List.reverse_nil])
    rw [List.rdropWhile, List.reverse_append, List.dropWhile_append, if_neg hb2,
      List.reverse_append, List.reverse_reverse]
    rfl

/-- Left- and right-trimming commute. -/
theorem dropWhile_rdropWhile_comm {α : Type} [DecidableEq α] (q : α → Bool) (l : List α) :
    List.dropWhile q (List.rdropWhile q l) = List.rdropWhile q (List.dropWhile q l) := by
  conv_lhs => rw [← List.takeWhile_append_dropWhile q l]
  rw [rdropWhile_append]
  by_cases hD : List.rdropWhile q (List.dropWhile q l) = []
  · rw [if_pos hD]
    have hT : List.rdropWhile q (List.takeWhile q l) = [] :=
      List.rdropWhile_eq_nil_iff.mpr (fun x hx => List.mem_takeWhile_imp hx)
    rw [hT, hD]
    rfl
  · rw [if_neg hD]
    rw [List.dropWhile_append]
    have hT2 : List.dropWhile q (List.takeWhile q l) = [] :=
      List.dropWhile_eq_nil_iff.mpr (fun x hx => List.mem_takeWhile_imp hx)
    rw [hT2]
    simp only [List.isEmpty_nil, if_true]
    obtain ⟨t, ht⟩ := List.rdropWhile_prefix q (List.dropWhile q l)
    cases hR : List.rdropWhile q (List.dropWhile q l) with
    | nil => exact absurd hR hD
    | cons c R2 =>
      rw [hR] at ht
      have hq : q c = false := by
        have hh := List.head?_dropWhile_not q l
        rw [← ht] at hh
        simpa using hh
      rw [List.dropWhile_cons_of_neg (by simp [hq])]

theorem pyStrip_stripRight (l : List Char) : pyStrip (pyStripRight l) = pyStrip l := by
  show List.rdropWhile isPySpace (List.dropWhile isPySpace (List.rdropWhile isPySpace l)) =
    List.rdropWhile isPySpace (List.dropWhile isPySpace l)
  rw [dropWhile_rdropWhile_comm, List.rdropWhile_idempotent]

theorem pyStrip_cons_ws (c : Char) (l : List Char) (h : isPySpace c = true) :
    pyStrip (c :: l) = pyStrip l := by
  show List.rdropWhile isPySpace (List.dropWhile isPySpace (c :: l)) = _
  rw [List.dropWhile_cons_of_pos h]
  rfl

/-- Scanning a backtick-free character never starts a fence token. -/
theorem splitTicks_cons_ne (acc : List Char) (c : Char) (l : List Char) (hc : ¬ c = '`') :
    pySplitTicksGo acc (c :: l) = pySplitTicksGo (c :: acc) l := by
  rw [pySplitTicksGo.eq_def]
  split <;> simp_all

/-- Splitting a backtick-free block followed by a closing fence. -/
theorem splitTicks_fence (l : List Char) : ∀ acc : List Char, (∀ c ∈ l, ¬ c = '`') →
    pySplitTicksGo acc (l ++ '\n' :: '`' :: '`' :: '`' :: []) =
      [acc.reverse ++ l ++ ['\n'], []] := by
  induction l with
  | nil =>
    intro acc h
    show pySplitTicksGo acc ('\n' :: '`' :: '`' :: '`' :: []) = _
    rw [splitTicks_cons_ne acc '\n' _ (by decide)]
    simp [pySplitTicksGo, List.reverse_cons]
  | cons c rest ih =>
    intro acc h
    rw [List.cons_append, splitTicks_cons_ne acc c _ (h c (List.mem_cons_self c rest))]
    rw [ih (c :: acc) (fun x hx => h x (List.mem_cons_of_mem c hx))]
    simp [List.reverse_cons, List.append_assoc]

/-- Trimming the inner fenced block `json\n<p>\n`. -/
theorem pyStrip_json_inner (p : List Char) :
    pyStrip ("json\n".data ++ p ++ ['\n']) = "json".data ++ pyStripRight ('\n' :: p) := by
  show List.rdropWhile isPySpace (List.dropWhile isPySpace _) = _
  have h1 : List.dropWhile isPySpace ("json\n".data ++ p ++ ['\n']) =
      "json\n".data ++ p ++ ['\n'] := by
    have e : "json\n".data ++ p ++ ['\n'] = 'j' :: ("son\n".data ++ p ++ ['\n']) := rfl
    rw [e, List.dropWhile_cons_of_neg (by decide)]
  rw [h1]
  have h2 : "json\n".data ++ p ++ ['\n'] = "json".data ++ (('\n' :: p) ++ ['\n']) := rfl
  rw [h2, rdropWhile_append, List.rdropWhile_concat_pos isPySpace ('\n' :: p) '\n' (by decide)]
  by_cases hX : List.rdropWhile isPySpace ('\n' :: p) = []
  · rw [if_pos hX]
    show List.rdropWhile isPySpace "json".data = "json".data ++ pyStripRight ('\n' :: p)
    rw [show pyStripRight ('\n' :: p) = List.rdropWhile isPySpace ('\n' :: p) from rfl, hX]
    decide
  · rw [if_neg hX]
    rfl

/-- `mkFenced p` wraps a payload in fenced markdown with a `json` language
tag, the shape the Coordinator's model is prompted to reply with. -/
def mkFenced (p : String) : String := "```json\n" ++ p ++ "\n```"

/-- Unwrapping a fenced backtick-free payload recovers the trimmed
payload: the fence-stripping block applied to `mkFenced p` yields
`p.strip()`. -/
theorem stripFenced_mkFenced (p : String) (hp : ∀ c ∈ p.data, ¬ c = '`') :
    stripFenced (mkFenced p).data = pyStrip p.data := by
  have hdata : (mkFenced p).data =
      '`' :: '`' :: '`' :: ("json\n".data ++ p.data ++ ('\n' :: '`' :: '`' :: '`' :: [])) := by
    show (("```json\n" ++ p) ++ "\n```").data = _
    rw [String.data_append, String.data_append]
    rfl
  have hmem : ∀ c ∈ "json\n".data ++ p.data, ¬ c = '`' := by
    intro c hc
    rcases List.mem_append.mp hc with h | h
    · intro e; subst e; revert h; decide
    · exact hp c h
  have hsplit : pySplitTicks (mkFenced p).data = [[], "json\n".data ++ p.data ++ ['\n'], []] := by
    rw [hdata]
    show [].reverse ::
      pySplitTicksGo [] ("json\n".data ++ p.data ++ ('\n' :: '`' :: '`' :: '`' :: [])) = _
    rw [show "json\n".data ++ p.data ++ ('\n' :: '`' :: '`' :: '`' :: []) =
      ("json\n".data ++ p.data) ++ '\n' :: '`' :: '`' :: '`' :: [] from rfl]
    rw [splitTicks_fence ("json\n".data ++ p.data) [] hmem]
    simp
  have hticks : hasTicks (mkFenced p).data = true := by rw [hdata]; rfl
  have hpre : "json".data.isPrefixOf ("json".data ++ pyStripRight ('\n' :: p.data)) = true :=
    List.isPrefixOf_iff_prefix.mpr (List.prefix_append _ _)
  have hdrop : ("json".data ++ pyStripRight ('\n' :: p.data)).drop 4 =
      pyStripRight ('\n' :: p.data) := by
    have h4 : ("json".data).length = 4 := rfl
    have := List.drop_left "json".data (pyStripRight ('\n' :: p.data))
    rw [h4] at this
    exact this
  unfold stripFenced
  rw [hticks, if_pos rfl, hsplit]
  rw [if_pos (by simp)]
  simp only [List.getD_cons_succ, List.getD_cons_zero]
  rw [pyStrip_json_inner p.data, if_pos hpre, hdrop, pyStrip_stripRight,
    pyStrip_cons_ws '\n' p.data (by decide)]

/-- C7 counterexample: `coordinate` succeeds on a fenced list payload one
of whose items is whitespace-only (empty after trimming) - the code checks
only that items are strings, so "succeeds only if every item is non-empty
after trimming" is false.  (The non-emptiness check lives in the unused
`CoordinatorResponse` Pydantic model.) -/
theorem coordinate_accepts_blank_subtask :
    coordinateText "```json\n[\"  \", \"x\"]\n```" = .ok ["  ", "x"] ∧
    pyStripS "  " = "" :=
  ⟨rfl, rfl⟩

/-- C7 (amended): for a backtick-free payload wrapped in fenced markdown
that parses as JSON, `coordinate` succeeds if and only if the payload is a
list of 2 to 4 items that are all strings; trimmed-emptiness of the items
is not checked.  On success the returned subtasks are exactly the items. -/
theorem coordinate_fenced_list_payload (p : String) (j : Json)
    (hp : ∀ c ∈ p.data, ¬ c = '`')
    (hj : pyJsonLoads (pyStripS p) = some j) :
    ((∃ xs, coordinateText (mkFenced p) = .ok xs) ↔
      ∃ items, j = .arr items ∧ 2 ≤ items.length ∧ items.length ≤ 4 ∧
        items.all Json.isStr = true) ∧
    (∀ items, j = .arr items → 2 ≤ items.length → items.length ≤ 4 →
      items.all Json.isStr = true →
      coordinateText (mkFenced p) = .ok (items.map Json.asStr)) := by
  have hred : coordinateText (mkFenced p) = coordValidate j := by
    unfold coordinateText
    rw [stripFenced_mkFenced p hp,
      show (⟨pyStrip p.data⟩ : String) = pyStripS p from rfl, hj]
  refine ⟨⟨?_, ?_⟩, ?_⟩
  · intro ⟨xs, hxs⟩
    rw [hred] at hxs
    cases j with
    | arr items =>
      simp only [coordValidate] at hxs
      split_ifs at hxs with hc1 hc2
      simp only [Bool.or_eq_true, decide_eq_true_eq, not_or, Nat.not_lt] at hc1
      exact ⟨items, rfl, hc1.1, hc1.2, hc2⟩
    | null => simp [coordValidate] at hxs
    | bool b => simp [coordValidate] at hxs
    | num n => simp [coordValidate] at hxs
    | str s => simp [coordValidate] at hxs
    | obj fields => simp [coordValidate] at hxs
  · intro ⟨items, hj2, h2, h4, hstr⟩
    subst hj2
    have hcond : ¬ ((items.length < 2 || 4 < items.length) = true) := by
      simp only [Bool.or_eq_true, decide_eq_true_eq, not_or, Nat.not_lt]
      omega
    rw [hred]
    simp only [coordValidate]
    rw [if_neg hcond, if_pos hstr]
    exact ⟨_, rfl⟩
  · intro items hj2 h2 h4 hstr
    subst hj2
    have hcond : ¬ ((items.length < 2 || 4 < items.length) = true) := by
      simp only [Bool.or_eq_true, decide_eq_true_eq, not_or, Nat.not_lt]
      omega
    rw [hred]
    simp only [coordValidate]
    rw [if_neg hcond, if_pos hstr]

theorem coordinate_fenced_list_payload_witness :
    (∀ c ∈ "[\"a\", \"b\"]".data, ¬ c = '`') ∧
    pyJsonLoads (pyStripS "[\"a\", \"b\"]") = some (.arr [.str "a", .str "b"]) ∧
    coordinateText (mkFenced "[\"a\", \"b\"]") = .ok ["a", "b"] :=
  ⟨by decide, rfl,
   (coordinate_fenced_list_payload "[\"a\", \"b\"]" (.arr [.str "a", .str "b"])
     (by decide) rfl).2 [.str "a", .str "b"] rfl (by decide) (by decide) rfl⟩

/-- A successful Coordinator validation always yields at least two
subtasks. -/
theorem coordValidate_ok_length (j : Json) (xs : List String)
    (h : coordValidate j = .ok xs) : 2 ≤ xs.length := by
  cases j with
  | arr items =>
    simp only [coordValidate] at h
    split_ifs at h with hc1 hc2
    simp only [Bool.or_eq_true, decide_eq_true_eq, not_or, Nat.not_lt] at hc1
    injection h with he
    rw [← he, List.length_map]
    exact hc1.1
  | null => simp [coordValidate] at h
  | bool b => simp [coordValidate] at h
  | num n => simp [coordValidate] at h
  | str s => simp [coordValidate] at h
  | obj fields => simp [coordValidate] at h

theorem coordinateText_ok_length (rt : String) (xs : List String)
    (h : coordinateText rt = .ok xs) : 2 ≤ xs.length := by
  unfold coordinateText at h
  cases hj : pyJsonLoads ⟨stripFenced rt.data⟩ with
  | none => rw [hj] at h; exact absurd h (by simp)
  | some j => rw [hj] at h; exact coordValidate_ok_length j xs h

theorem coordinateAgent_ok_length (script : List MResponse) (q : String)
    (subs : List String) (rest : List MResponse)
    (h : coordinateAgent script q = .ok (subs, rest)) : 2 ≤ subs.length := by
  unfold coordinateAgent at h
  cases hc : call_claude none script q with
  | error e => rw [hc] at h; exact absurd h (by simp)
  | ok r =>
    obtain ⟨resp, reqs, disp, rest2⟩ := r
    rw [hc] at h
    dsimp only at h
    cases hp : parse_response resp with
    | error e => rw [hp] at h; exact absurd h (by simp)
    | ok text =>
      rw [hp] at h
      dsimp only at h
      cases ht : coordinateText text with
      | error e => rw [ht] at h; exact absurd h (by simp)
      | ok subtasks =>
        rw [ht] at h
        dsimp only at h
        have : subtasks = subs := by
          injection h with hpair
          exact (Prod.mk.injEq _ _ _ _ ▸ hpair).1
        subst this
        exact coordinateText_ok_length text subtasks ht

/-- C1: the workflow entry point cannot research any subtask as written:
`run_research_workflow` calls `research` with the keyword argument
`tool_executor`, which `ResearcherAgent.research` does not declare, so the
keyword call cannot bind and every run that gets past coordination raises
`TypeError` at the first loop iteration.  Consequently the
coordination-and-research phase of the workflow never succeeds, for any
scripted model and any query. -/
theorem workflow_research_call_type_error :
    pyKwargsBindable research_kw_params workflow_research_kwargs = false ∧
    ∀ (script : List MResponse) (q : String),
      (workflowThroughResearch script q).isOk = false := by
  refine ⟨by decide, ?_⟩
  intro script q
  unfold workflowThroughResearch
  cases hc : coordinateAgent script q with
  | error e => rfl
  | ok pr =>
    obtain ⟨subs, script2⟩ := pr
    have hlen := coordinateAgent_ok_length script q subs script2 hc
    cases subs with
    | nil => simp at hlen
    | cons t rest =>
      simp only [researchPhase]
      rw [if_neg (by decide)]
      rfl
